import Mathlib

/-!
Verification of the SDRF-to-mzML metadata pipeline (`src/main.rs`).

The Rust program reads an SDRF annotation table, classifies columns,
maps fields to controlled-vocabulary parameters, groups rows by their
"data file" comment, and patches the sample list of an mzML stream.

Shallow embedding notes:
* Rust `Option`-returning helpers are embedded as `Option`; a Rust
  `.unwrap()` on `None` (a panic) is embedded as propagating `none`.
* Strings are manipulated through their character lists, mirroring
  `str::split_once`, `str::rsplit_once`, `str::trim`,
  `str::starts_with` and `String::replace` from the Rust standard
  library.
* `HashMap<String, Vec<_>>` built by in-order `entry(..).or_default().push(..)`
  is embedded as an insertion-ordered association list with unique keys;
  the claims under study depend only on lookups and group contents,
  which agree with the hash map.
-/

set_option autoImplicit false

namespace SDRF

/-- Scalar cell value. Modelled from the spec's description of the external
`mzdata` `Value` type: "a typed scalar wrapper (string / numeric / empty)";
"numeric if it matches a numeric literal, otherwise a string; an empty cell
becomes an explicit empty value". The numeric payload keeps its source text.
`as_str` renders `Empty` as the empty string, as `mzdata` does. -/
inductive Value where
  | Empty
  | Str (s : String)
  | Num (s : String)
  deriving DecidableEq, Repr

/-- Rust `Value::as_str` (string rendering of a cell value). -/
def Value.as_str : Value → String
  | .Empty => ""
  | .Str s => s
  | .Num s => s

/-- Integer-literal test: an optional leading minus sign followed by at
least one digit. -/
def isIntLit : List Char → Bool
  | [] => false
  | '-' :: ds => !ds.isEmpty && ds.all (fun c => c.isDigit)
  | ds => ds.all (fun c => c.isDigit)

/-- Cell parsing, `val.parse::<Value>()`: empty cell → `Empty`, integer
literal → numeric, otherwise string. -/
def parseValue (s : String) : Value :=
  if s = "" then Value.Empty
  else if isIntLit s.data then Value.Num s
  else Value.Str s

/-- Column class tag (`SDRFClass` in `src/main.rs`). -/
inductive SDRFClass where
  | Innate
  | Characteristic
  | Comment
  | Factor
  deriving DecidableEq, Repr

/-- Rust `str::split_once(c)`: split at the first occurrence of `c`,
returning the parts before and after it. -/
def splitOnceL (c : Char) : List Char → Option (List Char × List Char)
  | [] => none
  | x :: xs =>
    if x = c then some ([], xs)
    else
      match splitOnceL c xs with
      | none => none
      | some (a, b) => some (x :: a, b)

/-- Rust `str::rsplit_once(c)`: split at the last occurrence of `c`,
returning the parts before and after it. -/
def rsplitOnceL (c : Char) (l : List Char) : Option (List Char × List Char) :=
  match splitOnceL c l.reverse with
  | none => none
  | some (afterRev, beforeRev) => some (beforeRev.reverse, afterRev.reverse)

/-- Rust `str::trim` on a character list: drop leading and trailing
whitespace. -/
def trimChars (l : List Char) : List Char :=
  ((l.dropWhile Char.isWhitespace).reverse.dropWhile Char.isWhitespace).reverse

/-- Rust `str::trim` on a string. -/
def rustTrim (s : String) : String :=
  String.mk (trimChars s.data)

/-- Rust `str::starts_with` for a string pattern. -/
def startsWithL (s : List Char) : List Char → Bool
  | [] => true
  | d :: ds =>
    match s with
    | [] => false
    | c :: cs => c == d && startsWithL cs ds

/-- A row value for a single column in an SDRF table (`SDRFField`). -/
structure SDRFField where
  name : String
  field_class : SDRFClass
  value : Value
  deriving DecidableEq, Repr

/-- Rust `SDRFField::name`: the canonical column name, independent of its
column class.  For `Innate` and `Factor` the stored name is returned
verbatim; otherwise the text between the first `[` and the last `]` is
extracted and trimmed.  The Rust code unwraps both splits; a missing
bracket panics, embedded here as `none`. -/
def SDRFField.cname? (f : SDRFField) : Option String :=
  match f.field_class with
  | SDRFClass.Innate | SDRFClass.Factor => some f.name
  | _ =>
    match splitOnceL '[' f.name.data with
    | none => none
    | some (_, rest) =>
      match rsplitOnceL ']' rest with
      | none => none
      | some (inner, _) => some (String.mk (trimChars inner))

/-- An mzML parameter: either a controlled-vocabulary parameter
(`cv.param_val(accession, name, value)`) or a user parameter
(`Param::new_key_value(key, value)`). -/
inductive Param where
  | Controlled (cv : String) (accession : Nat) (pname : String) (value : Value)
  | UserParam (key : String) (value : Value)
  deriving DecidableEq, Repr

/-- Second lookup keyed by the row value for the `label` column: the fixed
table of isobaric tag codes from `SDRFField::as_param`. -/
def labelTag (v : String) : Option (String × Nat × String × Value) :=
  if v = "TMT126" then some ("MS", 1002616, "TMT reagent 126", Value.Empty)
  else if v = "TMT127" then some ("MS", 1002617, "TMT reagent 127", Value.Empty)
  else if v = "TMT128" then some ("MS", 1002618, "TMT reagent 128", Value.Empty)
  else if v = "TMT129" then some ("MS", 1002619, "TMT reagent 129", Value.Empty)
  else if v = "TMT130" then some ("MS", 1002620, "TMT reagent 130", Value.Empty)
  else if v = "TMT131" then some ("MS", 1002621, "TMT reagent 131", Value.Empty)
  else if v = "TMT127N" then some ("MS", 1002763, "TMT reagent 127N", Value.Empty)
  else if v = "TMT127C" then some ("MS", 1002764, "TMT reagent 127C", Value.Empty)
  else if v = "TMT128N" then some ("MS", 1002765, "TMT reagent 128N", Value.Empty)
  else if v = "TMT128C" then some ("MS", 1002766, "TMT reagent 128C", Value.Empty)
  else if v = "TMT129N" then some ("MS", 1002767, "TMT reagent 129N", Value.Empty)
  else if v = "TMT129C" then some ("MS", 1002768, "TMT reagent 129C", Value.Empty)
  else if v = "TMT130N" then some ("MS", 1002769, "TMT reagent 130N", Value.Empty)
  else if v = "TMT130C" then some ("MS", 1002770, "TMT reagent 130C", Value.Empty)
  else none

/-- The fixed primary term table of `SDRFField::as_param`: canonical
name → (vocabulary, accession, label, attached value).  The `label`
name dispatches to the value-keyed `labelTag` table. -/
def curieOf (name : String) (value : Value) : Option (String × Nat × String × Value) :=
  if name = "organism part" then some ("EFO", 635, name, value)
  else if name = "organism" then some ("OBI", 100026, name, value)
  else if name = "developmental stage" then some ("EFO", 399, name, value)
  else if name = "ancestry category" then some ("HANCESTRO", 4, name, value)
  else if name = "cell type" then some ("EFO", 324, name, value)
  else if name = "material type" then some ("BFO", 40, name, value)
  else if name = "age" then some ("EFO", 246, name, value)
  else if name = "disease" then some ("EFO", 408, name, value)
  else if name = "time" then some ("EFO", 721, name, value)
  else if name = "technology type" then some ("EFO", 5521, name, value)
  else if name = "biological replicate" then some ("EFO", 2091, name, value)
  else if name = "technical replicate" then some ("MS", 1001808, name, value)
  else if name = "fraction identifier" then some ("MS", 1000858, name, value)
  else if name = "file uri" then some ("PRIDE", 577, name, value)
  else if name = "label" then labelTag value.as_str
  else none

/-- Rust `SDRFField::as_param`: convert the column into a cvParam via the
term table, or fall back to a userParam keyed by the raw stored name.
A panic inside the canonical-name extraction propagates as `none`. -/
def SDRFField.as_param (f : SDRFField) : Option Param :=
  match f.cname? with
  | none => none
  | some name =>
    match curieOf name f.value with
    | some (cv, acc, pname, v) => some (Param.Controlled cv acc pname v)
    | none => some (Param.UserParam f.name f.value)

/-- One SDRF row (`SDRFSample`). -/
structure SDRFSample where
  name : String
  fields : List SDRFField
  characteristics : List SDRFField
  comments : List SDRFField
  factors : List SDRFField
  deriving DecidableEq, Repr

/-- Rust `Iterator::find` over the comments, comparing each comment's
canonical name with "data file".  The canonical-name extraction can
panic (outer `none`); an absent match is the inner `none`. -/
def findDataFile : List SDRFField → Option (Option SDRFField)
  | [] => some none
  | f :: fs =>
    match f.cname? with
    | none => none
    | some n => if n = "data file" then some (some f) else findDataFile fs

/-- Rust `SDRFSample::data_file`: the string value of the first comment
whose canonical name is "data file", when one exists. -/
def SDRFSample.data_file (s : SDRFSample) : Option (Option String) :=
  match findDataFile s.comments with
  | none => none
  | some r => some (r.map (fun f => f.value.as_str))

/-- The exported sample (`mzdata::meta::Sample::new(id, name, params)`). -/
structure Sample where
  id : String
  name : Option String
  params : List Param
  deriving DecidableEq, Repr

/-- The parameter-collection loop of `SDRFSample::as_sample`: walk the
chained field lists, skip canonical names "data file" and "instrument",
convert the rest with `as_param` in order.  A panic propagates as `none`. -/
def collectParams : List SDRFField → Option (List Param)
  | [] => some []
  | f :: fs =>
    match f.cname? with
    | none => none
    | some n =>
      if n = "data file" ∨ n = "instrument" then collectParams fs
      else
        match f.as_param with
        | none => none
        | some p =>
          match collectParams fs with
          | none => none
          | some ps => some (p :: ps)

/-- Rust `self.name.replace(" ", "_")`: a one-character pattern and
replacement, hence a character map. -/
def underscoreSpaces (s : String) : String :=
  s.map (fun c => if c = ' ' then '_' else c)

/-- Rust `SDRFSample::as_sample`: build the exported sample from the
fields in the order innate, characteristics, comments, factors. -/
def SDRFSample.as_sample (s : SDRFSample) : Option Sample :=
  match collectParams (s.fields ++ s.characteristics ++ s.comments ++ s.factors) with
  | none => none
  | some params =>
    some { id := (underscoreSpaces s.name).toLower
           name := some s.name
           params := params }

/-- Header normalization in `read_sdrf`: `s.replace(" ]", "]")`, replacing
non-overlapping occurrences left to right without rescanning. -/
def normalizeChars : List Char → List Char
  | [] => []
  | ' ' :: ']' :: rest => ']' :: normalizeChars rest
  | c :: rest => c :: normalizeChars rest

/-- Header normalization on strings. -/
def normalizeHeader (s : String) : String :=
  String.mk (normalizeChars s.data)

/-- One step of the row-parsing loop in `read_sdrf`: dispatch a
(normalized header, cell) pair into the sample under construction. -/
def addField (s : SDRFSample) (name : String) (val : String) : SDRFSample :=
  if name = "source name" then { s with name := val }
  else if startsWithL name.data "characteristics[".data
       || startsWithL name.data "characteristic[".data then
    { s with characteristics :=
        s.characteristics ++ [⟨name, SDRFClass.Characteristic, parseValue val⟩] }
  else if startsWithL name.data "comment[".data then
    { s with comments := s.comments ++ [⟨name, SDRFClass.Comment, parseValue val⟩] }
  else if startsWithL name.data "factor value[".data then
    { s with factors := s.factors ++ [⟨name, SDRFClass.Factor, parseValue val⟩] }
  else
    { s with fields := s.fields ++ [⟨name, SDRFClass.Innate, parseValue val⟩] }

/-- Parse one data row against the normalized headers. -/
def parseRow (pairs : List (String × String)) : SDRFSample :=
  pairs.foldl (fun s p => addField s p.1 p.2) ⟨"", [], [], [], []⟩

/-- Association-list lookup (the `HashMap` view used by `main`). -/
def lookupA (k : String) : List (String × List SDRFSample) → Option (List SDRFSample)
  | [] => none
  | (k2, g) :: rest => if k2 = k then some g else lookupA k rest

/-- Rust `index.entry(k).or_default().push(s)` on the insertion-ordered
association-list view of the hash map. -/
def insertEntry (k : String) (s : SDRFSample) :
    List (String × List SDRFSample) → List (String × List SDRFSample)
  | [] => [(k, [s])]
  | (k2, g) :: rest =>
    if k2 = k then (k2, g ++ [s]) :: rest else (k2, g) :: insertEntry k s rest

/-- The loop body of `organize_by_data_file`, folding rows in order into
the index.  `s.data_file().unwrap()` panics when the row has no
"data file" comment (or when a comment header is malformed); both
propagate as `none`. -/
def organizeAux (acc : List (String × List SDRFSample)) :
    List SDRFSample → Option (List (String × List SDRFSample))
  | [] => some acc
  | s :: rest =>
    match s.data_file with
    | some (some k) => organizeAux (insertEntry k s acc) rest
    | _ => none

/-- Rust `organize_by_data_file`: group the samples by their "data file"
comment value. -/
def organize_by_data_file (l : List SDRFSample) :
    Option (List (String × List SDRFSample)) :=
  organizeAux [] l

/-- The Rust panic message of `Option::unwrap()` on `None`. -/
def unwrapMsg : String := "called `Option::unwrap()` on a `None` value"

/-- The source-file selection phase of `main`:
`reader.file_description().source_files.first().unwrap()` followed by
`samples_by_data_file.get(&source_file.name).unwrap()`.  Panics are
embedded as `Except.error` carrying the Rust panic message. -/
def mainLookup (sourceFiles : List String)
    (index : List (String × List SDRFSample)) :
    Except String (String × List SDRFSample) :=
  match sourceFiles with
  | [] => Except.error unwrapMsg
  | sf :: _ =>
    match lookupA sf index with
    | none => Except.error unwrapMsg
    | some g => Except.ok (sf, g)

/-- The tail of `main` after the SDRF index is built: pick the source
file, build the sample list, then stream the content through.  Content
units are opaque (`Nat` stands for one unit); an error produces no
output at all (no partial streaming). -/
def runMain (sourceFiles : List String)
    (index : List (String × List SDRFSample)) (content : List Nat) :
    Except String (List (Option Sample) × List Nat) :=
  match mainLookup sourceFiles index with
  | Except.error e => Except.error e
  | Except.ok (_, g) => Except.ok (g.map SDRFSample.as_sample, content)

/-- The canonical names of the primary term table of `curieOf` (every
match arm except the value-dispatched `label` arm and the fallback). -/
def primaryNames : List String :=
  ["organism part", "organism", "developmental stage", "ancestry category",
   "cell type", "material type", "age", "disease", "time", "technology type",
   "biological replicate", "technical replicate", "fraction identifier",
   "file uri"]

/-- The isobaric tag codes recognized by the `label` value table. -/
def tagCodes : List String :=
  ["TMT126", "TMT127", "TMT128", "TMT129", "TMT130", "TMT131",
   "TMT127N", "TMT127C", "TMT128N", "TMT128C", "TMT129N", "TMT129C",
   "TMT130N", "TMT130C"]

/-- Whether `as_sample` keeps a field: its canonical name extraction
succeeds and the name is neither "data file" nor "instrument". -/
def keepB (f : SDRFField) : Bool :=
  match f.cname? with
  | none => false
  | some n => !(n == "data file" || n == "instrument")

/-- Whether a row carries a "data file" comment whose canonical name
extraction succeeds (`data_file()` returns `Some` without panicking). -/
def hasDataFile (s : SDRFSample) : Bool :=
  match s.data_file with
  | some (some _) => true
  | _ => false

/-- Total number of rows across all groups of the index. -/
def sumSizes (m : List (String × List SDRFSample)) : Nat :=
  (m.map (fun p => p.2.length)).sum

/-- Example row: sample A annotated with data file run1.raw. -/
def rowA : SDRFSample :=
  parseRow [("source name", "Sample A"), ("characteristics[organism]", "human"),
            ("comment[data file]", "run1.raw")]

/-- Example row: sample B annotated with data file run2.raw. -/
def rowB : SDRFSample :=
  parseRow [("source name", "Sample B"), ("comment[data file]", "run2.raw")]

/-- Example row: sample C annotated with data file run1.raw. -/
def rowC : SDRFSample :=
  parseRow [("source name", "Sample C"), ("comment[data file]", "run1.raw")]

/-- Example row with the full mix of column classes, including the
excluded "data file" and "instrument" comments. -/
def rowFull : SDRFSample :=
  parseRow [("source name", "Sample A"), ("characteristics[organism]", "human"),
            ("comment[data file]", "run1.raw"), ("comment[instrument]", "QE"),
            ("factor value[dose]", "10")]

/-- String append acts as list append on the character data. -/
lemma data_append : ∀ (s t : String), (s ++ t).data = s.data ++ t.data :=
  fun ⟨_⟩ ⟨_⟩ => rfl

/-- A string starts with its own prefix. -/
lemma startsWithL_append (p x : List Char) : startsWithL (p ++ x) p = true := by
  induction p with
  | nil => simp [startsWithL]
  | cons c cs ih => simp [startsWithL, ih]

/-- Splitting at the first occurrence of the separator. -/
lemma splitOnceL_eq_of_not_mem (c : Char) (p l : List Char) (hp : c ∉ p) :
    splitOnceL c (p ++ c :: l) = some (p, l) := by
  induction p with
  | nil => simp [splitOnceL]
  | cons a as ih =>
    have ha : a ≠ c := fun h => hp (h ▸ List.mem_cons_self a as)
    have ih2 := ih (fun h => hp (List.mem_cons_of_mem a h))
    simp [splitOnceL, ha, ih2]

/-- Splitting at the last occurrence of a character that ends the list. -/
lemma rsplitOnceL_concat (c : Char) (d : List Char) :
    rsplitOnceL c (d ++ [c]) = some (d, []) := by
  simp [rsplitOnceL, List.reverse_append, splitOnceL]

/-- Canonical name of a well-bracketed characteristic or comment column:
the text between the first opening bracket and the final closing
bracket, trimmed. -/
lemma cname_eq_of_bracketed (f : SDRFField)
    (hcl : f.field_class = SDRFClass.Characteristic ∨ f.field_class = SDRFClass.Comment)
    (p d : List Char) (hp : '[' ∉ p)
    (hname : f.name.data = p ++ '[' :: (d ++ [']'])) :
    f.cname? = some (String.mk (trimChars d)) := by
  obtain ⟨nm, cl, v⟩ := f
  rcases hcl with h | h <;> subst h <;>
    simp only [SDRFField.cname?] <;>
    rw [hname, splitOnceL_eq_of_not_mem _ _ _ hp] <;>
    simp [rsplitOnceL_concat]

/-- Character data of a bracketed header built from a prefix and an
inner name. -/
lemma bracket_header_data (pre inner : String) :
    (pre ++ inner ++ "]").data = pre.data ++ (inner.data ++ [']']) := by
  simp [data_append]

/-- Canonical name of `characteristics[<x>]`: `<x>` trimmed. -/
lemma cname_characteristic (x : String) (v : Value) :
    (SDRFField.mk ("characteristics[" ++ x ++ "]") SDRFClass.Characteristic v).cname?
      = some (rustTrim x) :=
  cname_eq_of_bracketed _ (Or.inl rfl) "characteristics".data x.data (by decide)
    (by rw [bracket_header_data]; try rfl)

/-- Canonical name of `characteristic[<x>]`: `<x>` trimmed. -/
lemma cname_characteristic2 (x : String) (v : Value) :
    (SDRFField.mk ("characteristic[" ++ x ++ "]") SDRFClass.Characteristic v).cname?
      = some (rustTrim x) :=
  cname_eq_of_bracketed _ (Or.inl rfl) "characteristic".data x.data (by decide)
    (by rw [bracket_header_data]; try rfl)

/-- Canonical name of `comment[<x>]`: `<x>` trimmed. -/
lemma cname_comment (x : String) (v : Value) :
    (SDRFField.mk ("comment[" ++ x ++ "]") SDRFClass.Comment v).cname?
      = some (rustTrim x) :=
  cname_eq_of_bracketed _ (Or.inr rfl) "comment".data x.data (by decide)
    (by rw [bracket_header_data]; try rfl)

/-- The row-parsing loop sends every `factor value[<x>]` header to the
factor list, storing the raw header text with class `Factor`. -/
lemma addField_factor (s : SDRFSample) (x v : String) :
    addField s ("factor value[" ++ x ++ "]") v
      = { s with factors :=
            s.factors ++ [⟨"factor value[" ++ x ++ "]", SDRFClass.Factor, parseValue v⟩] } := by
  have hd : ("factor value[" ++ x ++ "]").data
      = "factor value[".data ++ (x.data ++ [']']) := by
    rw [bracket_header_data]; try rfl
  have hne : ("factor value[" ++ x ++ "]") ≠ "source name" := by
    intro h
    have h5 := congrArg String.data h
    rw [hd] at h5
    exact absurd h5 (by simp)
  have h1 : startsWithL ("factor value[" ++ x ++ "]").data "characteristics[".data = false := by
    rw [hd]; try rfl
  have h2 : startsWithL ("factor value[" ++ x ++ "]").data "characteristic[".data = false := by
    rw [hd]; try rfl
  have h3 : startsWithL ("factor value[" ++ x ++ "]").data "comment[".data = false := by
    rw [hd]; try rfl
  have h4 : startsWithL ("factor value[" ++ x ++ "]").data "factor value[".data = true := by
    rw [hd]; exact startsWithL_append _ _
  unfold addField
  rw [if_neg hne, h1, h2, h3, h4]
  simp

/-- C1 (amended): a `factor value[<x>]` header is classified as Factor,
but its canonical field name is the raw header text verbatim — the
`name` accessor treats Factor like Innate and strips no brackets —
whereas `characteristics[<x>]` and `comment[<x>]` columns do yield
`<x>` with surrounding whitespace trimmed. -/
theorem factor_header_classified_factor_with_raw_name (x v : String) (s : SDRFSample) :
    addField s ("factor value[" ++ x ++ "]") v
      = { s with factors :=
            s.factors ++ [⟨"factor value[" ++ x ++ "]", SDRFClass.Factor, parseValue v⟩] }
    ∧ (SDRFField.mk ("factor value[" ++ x ++ "]") SDRFClass.Factor (parseValue v)).cname?
      = some ("factor value[" ++ x ++ "]")
    ∧ (SDRFField.mk ("characteristics[" ++ x ++ "]") SDRFClass.Characteristic (parseValue v)).cname?
      = some (rustTrim x)
    ∧ (SDRFField.mk ("comment[" ++ x ++ "]") SDRFClass.Comment (parseValue v)).cname?
      = some (rustTrim x) :=
  ⟨addField_factor s x v, rfl, cname_characteristic x _, cname_comment x _⟩

/-- C1 (counterexample): the header `factor value[phenotype]` is
classified as Factor, yet its canonical field name is not `phenotype`
as the claim states — it is the raw header text. -/
theorem factor_header_canonical_name_not_stripped :
    (addField ⟨"", [], [], [], []⟩ "factor value[phenotype]" "wt").factors
      = [⟨"factor value[phenotype]", SDRFClass.Factor, Value.Str "wt"⟩]
    ∧ (SDRFField.mk "factor value[phenotype]" SDRFClass.Factor (Value.Str "wt")).cname?
      ≠ some "phenotype" := by
  exact ⟨by decide, by decide⟩

/-- C2: the malformed header `characteristics[organism` (no closing
bracket) is accepted silently by the row parser as a Characteristic
column, and the later canonical-name extraction panics (embedded as
`none`, from `rsplit_once(']').unwrap()` on `None`) instead of
returning a recoverable table-format error. -/
theorem malformed_header_panics_in_name_extraction :
    (addField ⟨"", [], [], [], []⟩ "characteristics[organism" "human").characteristics
      = [⟨"characteristics[organism", SDRFClass.Characteristic, Value.Str "human"⟩]
    ∧ (SDRFField.mk "characteristics[organism" SDRFClass.Characteristic (Value.Str "human")).cname?
      = none := by
  exact ⟨by decide, by decide⟩

/-- C3: a row with comments but no "data file" comment makes
`organize_by_data_file` panic (`data_file().unwrap()` on `None`,
embedded as `none`) — no typed MissingAssociationError naming the row
index is produced. -/
theorem missing_data_file_comment_panics :
    organize_by_data_file
      [⟨"Sample A", [], [],
        [⟨"comment[fraction identifier]", SDRFClass.Comment, Value.Num "1"⟩], []⟩] = none := rfl

/-- C8 (counterexample): header normalization does not produce
`characteristics[organism]` from `characteristics[ organism ]`. -/
theorem normalize_keeps_space_after_open_bracket :
    normalizeHeader "characteristics[ organism ]" ≠ "characteristics[organism]" := by
  decide

/-- C8 (amended): header normalization replaces each occurrence of
`" ]"` by `"]"`, so it removes the stray space immediately before the
closing bracket only: `characteristics[ organism ]` becomes
`characteristics[ organism]` (the space after the opening bracket
remains, and is trimmed later by canonical-name extraction, which
still yields `organism`). -/
theorem normalize_trims_space_before_closing_bracket :
    normalizeHeader "characteristics[ organism ]" = "characteristics[ organism]"
    ∧ (SDRFField.mk (normalizeHeader "characteristics[ organism ]")
        SDRFClass.Characteristic Value.Empty).cname? = some "organism" :=
  ⟨rfl, rfl⟩

/-- A value outside the tag-code table makes the label lookup miss. -/
lemma labelTag_eq_none (v : String) (h : v ∉ tagCodes) : labelTag v = none := by
  simp [tagCodes, not_or] at h
  obtain ⟨e1, e2, e3, e4, e5, e6, e7, e8, e9, e10, e11, e12, e13, e14⟩ := h
  simp [labelTag, e1, e2, e3, e4, e5, e6, e7, e8, e9, e10, e11, e12, e13, e14]

/-- A canonical name outside the primary table (and different from
`label`) makes the primary lookup miss. -/
lemma curieOf_eq_none (n : String) (v : Value) (hn : n ∉ primaryNames)
    (hl : n ≠ "label") : curieOf n v = none := by
  simp [primaryNames, not_or] at hn
  obtain ⟨e1, e2, e3, e4, e5, e6, e7, e8, e9, e10, e11, e12, e13, e14⟩ := hn
  simp [curieOf, e1, e2, e3, e4, e5, e6, e7, e8, e9, e10, e11, e12, e13, e14, hl]

/-- C4: for a field whose canonical name is "label" and whose value reads
"TMT126", the mapper performs a second lookup on the value and returns
the controlled term MS:1002616 "TMT reagent 126" with an empty attached
value, not the original row value. -/
theorem label_tmt126_maps_to_fixed_term (f : SDRFField)
    (h1 : f.cname? = some "label") (h2 : f.value.as_str = "TMT126") :
    f.as_param = some (Param.Controlled "MS" 1002616 "TMT reagent 126" Value.Empty) := by
  have hc : curieOf "label" f.value = labelTag f.value.as_str := rfl
  rw [h2] at hc
  have hl : labelTag "TMT126" = some ("MS", 1002616, "TMT reagent 126", Value.Empty) := rfl
  rw [hl] at hc
  simp [SDRFField.as_param, h1, hc]

/-- C4 (witness): the concrete field `comment[label]` = "TMT126". -/
theorem label_tmt126_maps_to_fixed_term_witness :
    (SDRFField.mk "comment[label]" SDRFClass.Comment (Value.Str "TMT126")).cname? = some "label"
    ∧ (Value.Str "TMT126").as_str = "TMT126"
    ∧ (SDRFField.mk "comment[label]" SDRFClass.Comment (Value.Str "TMT126")).as_param
      = some (Param.Controlled "MS" 1002616 "TMT reagent 126" Value.Empty) :=
  ⟨by decide, rfl, label_tmt126_maps_to_fixed_term _ (by decide) rfl⟩

/-- C5: a field whose canonical name is absent from the fixed primary
term table — including a label field with an unrecognized tag value —
produces a user parameter whose key is the original stored header text
and whose value is the original value. -/
theorem unmapped_name_falls_back_to_userparam (f : SDRFField) (n : String)
    (h1 : f.cname? = some n) (h2 : n ∉ primaryNames)
    (h3 : n = "label" → f.value.as_str ∉ tagCodes) :
    f.as_param = some (Param.UserParam f.name f.value) := by
  have hc : curieOf n f.value = none := by
    by_cases hl : n = "label"
    · subst hl
      have he : curieOf "label" f.value = labelTag f.value.as_str := rfl
      exact he.trans (labelTag_eq_none _ (h3 rfl))
    · exact curieOf_eq_none n f.value h2 hl
  simp [SDRFField.as_param, h1, hc]

/-- C5 (witness): the concrete field `comment[label]` = "UNKNOWN_TAG". -/
theorem unmapped_name_falls_back_to_userparam_witness :
    (SDRFField.mk "comment[label]" SDRFClass.Comment (Value.Str "UNKNOWN_TAG")).cname? = some "label"
    ∧ "label" ∉ primaryNames
    ∧ (Value.Str "UNKNOWN_TAG").as_str ∉ tagCodes
    ∧ (SDRFField.mk "comment[label]" SDRFClass.Comment (Value.Str "UNKNOWN_TAG")).as_param
      = some (Param.UserParam "comment[label]" (Value.Str "UNKNOWN_TAG")) :=
  ⟨by decide, by decide, by decide,
    unmapped_name_falls_back_to_userparam _ "label" (by decide) (by decide)
      (fun _ => by decide)⟩

/-- A row has a usable data-file key exactly when `data_file` returns a
value without panicking. -/
lemma hasDataFile_iff (s : SDRFSample) :
    hasDataFile s = true ↔ ∃ k, s.data_file = some (some k) := by
  unfold hasDataFile
  cases h : s.data_file with
  | none => simp
  | some o => cases o <;> simp

/-- Lookup after one insertion step of the grouping fold. -/
lemma lookupA_insertEntry (k k2 : String) (s : SDRFSample)
    (acc : List (String × List SDRFSample)) :
    lookupA k (insertEntry k2 s acc)
      = if k2 = k then some ((lookupA k acc).getD [] ++ [s]) else lookupA k acc := by
  induction acc with
  | nil => by_cases h : k2 = k <;> simp [insertEntry, lookupA, h]
  | cons p rest ih =>
    obtain ⟨a, g⟩ := p
    by_cases h1 : a = k2
    · subst h1
      by_cases h2 : a = k
      · subst h2; simp [insertEntry, lookupA]
      · have h2b : ¬(k = a) := fun h => h2 (Eq.symm h)
        simp [insertEntry, lookupA, h2, h2b]
    · by_cases h2 : a = k
      · subst h2
        have hk2 : ¬(k2 = a) := fun h => h1 (Eq.symm h)
        simp [insertEntry, lookupA, h1, hk2]
      · simp [insertEntry, lookupA, h1, h2, ih]

/-- One insertion step grows the total group size by one. -/
lemma sumSizes_insertEntry (k : String) (s : SDRFSample)
    (acc : List (String × List SDRFSample)) :
    sumSizes (insertEntry k s acc) = sumSizes acc + 1 := by
  induction acc with
  | nil => simp [insertEntry, sumSizes]
  | cons p rest ih =>
    obtain ⟨a, g⟩ := p
    by_cases h : a = k <;> simp [insertEntry, h, sumSizes] at * <;> omega

/-- One insertion step either reuses an existing key or appends the new
key at the end. -/
lemma keys_insertEntry (k : String) (s : SDRFSample)
    (acc : List (String × List SDRFSample)) :
    (insertEntry k s acc).map Prod.fst
      = if k ∈ acc.map Prod.fst then acc.map Prod.fst
        else acc.map Prod.fst ++ [k] := by
  induction acc with
  | nil => simp [insertEntry]
  | cons p rest ih =>
    obtain ⟨a, g⟩ := p
    by_cases h : a = k
    · subst h; simp [insertEntry]
    · have hne : ¬(k = a) := fun he => h he.symm
      by_cases hmem : k ∈ rest.map Prod.fst <;>
        simp [insertEntry, h, hne, hmem, ih]

/-- Insertion preserves distinctness of the group keys. -/
lemma nodup_keys_insertEntry (k : String) (s : SDRFSample)
    (acc : List (String × List SDRFSample))
    (h : (acc.map Prod.fst).Nodup) :
    ((insertEntry k s acc).map Prod.fst).Nodup := by
  rw [keys_insertEntry]
  by_cases hk : k ∈ acc.map Prod.fst
  · simpa [hk] using h
  · simp [hk, List.nodup_append, h]

/-- Invariant of the grouping fold: it succeeds on rows that all carry a
data-file key, adds the row count to the total size, keeps keys
distinct, and extends each group, in row order, with exactly the rows
keyed to it. -/
lemma organizeAux_spec (rows : List SDRFSample) :
    ∀ acc : List (String × List SDRFSample),
    (∀ s ∈ rows, hasDataFile s = true) → (acc.map Prod.fst).Nodup →
    ∃ m, organizeAux acc rows = some m
      ∧ sumSizes m = sumSizes acc + rows.length
      ∧ (m.map Prod.fst).Nodup
      ∧ ∀ k, (lookupA k m).getD []
          = (lookupA k acc).getD []
            ++ rows.filter (fun s => decide (s.data_file = some (some k))) := by
  induction rows with
  | nil =>
    intro acc _ hnd
    exact ⟨acc, rfl, by simp, hnd, fun k => by simp⟩
  | cons s rest ih =>
    intro acc hall hnd
    obtain ⟨k0, hk0⟩ := (hasDataFile_iff s).mp (hall s (List.mem_cons_self s rest))
    have hrest : ∀ t ∈ rest, hasDataFile t = true :=
      fun t ht => hall t (List.mem_cons_of_mem s ht)
    obtain ⟨m, hm, hsum, hnd2, hlook⟩ :=
      ih (insertEntry k0 s acc) hrest (nodup_keys_insertEntry k0 s acc hnd)
    refine ⟨m, ?_, ?_, hnd2, ?_⟩
    · simp [organizeAux, hk0, hm]
    · rw [hsum, sumSizes_insertEntry]
      simp
      omega
    · intro k
      rw [hlook k, lookupA_insertEntry]
      by_cases hk : k0 = k
      · subst hk
        simp [hk0, List.append_assoc]
      · simp [hk, hk0, List.filter_cons]

/-- C6: when every row carries a "data file" comment, grouping succeeds,
the group sizes sum to the number of rows, group keys are distinct, and
the group held under each key is exactly the in-order sublist of rows
whose data-file value is that key (so each row lands in exactly one
group, the one keyed by its own data-file value). -/
theorem grouping_is_total_and_order_preserving (rows : List SDRFSample)
    (h : ∀ s ∈ rows, hasDataFile s = true) :
    ∃ m, organize_by_data_file rows = some m
      ∧ sumSizes m = rows.length
      ∧ (m.map Prod.fst).Nodup
      ∧ ∀ k, (lookupA k m).getD []
          = rows.filter (fun s => decide (s.data_file = some (some k))) := by
  obtain ⟨m, hm, hsum, hnd, hlook⟩ := organizeAux_spec rows [] h (by simp)
  refine ⟨m, hm, ?_, hnd, ?_⟩
  · simpa [sumSizes] using hsum
  · intro k
    simpa [lookupA] using hlook k

/-- C6 (witness): three concrete rows, two sharing run1.raw. -/
theorem grouping_is_total_and_order_preserving_witness :
    (∀ s ∈ [rowA, rowB, rowC], hasDataFile s = true)
    ∧ ∃ m, organize_by_data_file [rowA, rowB, rowC] = some m
      ∧ sumSizes m = [rowA, rowB, rowC].length
      ∧ (m.map Prod.fst).Nodup
      ∧ ∀ k, (lookupA k m).getD []
          = [rowA, rowB, rowC].filter (fun s => decide (s.data_file = some (some k))) :=
  ⟨by decide, grouping_is_total_and_order_preserving [rowA, rowB, rowC] (by decide)⟩

/-- Parameter conversion succeeds whenever canonical-name extraction
does: the fallback arm of `as_param` is total. -/
lemma as_param_isSome (f : SDRFField) (n : String) (h : f.cname? = some n) :
    (f.as_param).isSome = true := by
  cases hc : curieOf n f.value with
  | none => simp [SDRFField.as_param, h, hc]
  | some q =>
    obtain ⟨cv, acc, pn, v⟩ := q
    simp [SDRFField.as_param, h, hc]

/-- The parameter-collection loop equals filtering out the excluded
canonical names and mapping `as_param` in order, whenever every field's
canonical name extraction succeeds. -/
lemma collectParams_eq (l : List SDRFField)
    (h : ∀ f ∈ l, (f.cname?).isSome = true) :
    collectParams l = some ((l.filter keepB).filterMap SDRFField.as_param) := by
  induction l with
  | nil => rfl
  | cons f fs ih =>
    have hf := h f (List.mem_cons_self f fs)
    have hfs : ∀ g ∈ fs, (g.cname?).isSome = true :=
      fun g hg => h g (List.mem_cons_of_mem f hg)
    obtain ⟨n, hn⟩ := Option.isSome_iff_exists.mp hf
    by_cases hskip : n = "data file" ∨ n = "instrument"
    · have hk : keepB f = false := by
        rcases hskip with h | h <;> subst h <;> simp [keepB, hn]
      simp [collectParams, hn, hskip, ih hfs, List.filter_cons, hk]
    · have hk : keepB f = true := by
        simp [keepB, hn]
        push_neg at hskip
        simp [hskip.1, hskip.2]
      obtain ⟨p, hp⟩ := Option.isSome_iff_exists.mp (as_param_isSome f n hn)
      simp [collectParams, hn, hskip, ih hfs, List.filter_cons, hk, hp,
        List.filterMap_cons]

/-- C9: for a row whose fields all have extractable canonical names, the
exported sample walks the fields in the fixed order innate,
characteristics, comments, factors, skips exactly the fields whose
canonical name is "data file" or "instrument", maps the rest through
`as_param` in iteration order, takes as id the row name with spaces
replaced by underscores and lowercased, and as display name the row
name verbatim. -/
theorem exported_sample_structure (s : SDRFSample)
    (h : ∀ f ∈ s.fields ++ s.characteristics ++ s.comments ++ s.factors,
      (f.cname?).isSome = true) :
    s.as_sample = some
      { id := (underscoreSpaces s.name).toLower
        name := some s.name
        params := ((s.fields ++ s.characteristics ++ s.comments ++ s.factors).filter
            keepB).filterMap SDRFField.as_param } := by
  unfold SDRFSample.as_sample
  rw [collectParams_eq _ h]

/-- C9 (witness): the full example row, including excluded "data file"
and "instrument" comments. -/
theorem exported_sample_structure_witness :
    (∀ f ∈ rowFull.fields ++ rowFull.characteristics ++ rowFull.comments ++ rowFull.factors,
      (f.cname?).isSome = true)
    ∧ rowFull.as_sample = some
      { id := (underscoreSpaces rowFull.name).toLower
        name := some rowFull.name
        params := ((rowFull.fields ++ rowFull.characteristics ++ rowFull.comments
            ++ rowFull.factors).filter keepB).filterMap SDRFField.as_param } :=
  ⟨by decide, exported_sample_structure rowFull (by decide)⟩

/-- C10: a "data file" comment parsed from a present but empty cell is
not treated as a missing association: `data_file` returns the empty
string and grouping succeeds, filing the row under the empty-string
key. -/
theorem empty_data_file_cell_groups_under_empty_key (nm : String)
    (flds chars facs : List SDRFField) :
    parseValue "" = Value.Empty
    ∧ (addField ⟨nm, flds, chars, [], facs⟩ "comment[data file]" "").data_file
      = some (some "")
    ∧ organize_by_data_file [addField ⟨nm, flds, chars, [], facs⟩ "comment[data file]" ""]
      = some [("", [addField ⟨nm, flds, chars, [], facs⟩ "comment[data file]" ""])] :=
  ⟨rfl, rfl, rfl⟩

/-- C7 (counterexample): with no declared source file the run aborts via
the generic unwrap panic, not with the diagnostic message "no source
file declared". -/
theorem missing_source_file_panics_generically :
    runMain [] [] [1, 2, 3] = Except.error unwrapMsg
    ∧ unwrapMsg ≠ "no source file declared" :=
  ⟨rfl, by decide⟩

/-- C7 (amended): if the container declares no source files, or the
first declared source-file name has no group in the index, the run
aborts before any content is streamed with a hard error — the generic
`Option::unwrap()` panic rather than a named diagnostic — and produces
no output at all. -/
theorem lookup_failure_aborts_before_streaming (sourceFiles : List String)
    (index : List (String × List SDRFSample)) (content : List Nat)
    (h : sourceFiles = []
      ∨ ∃ sf rest, sourceFiles = sf :: rest ∧ lookupA sf index = none) :
    runMain sourceFiles index content = Except.error unwrapMsg := by
  rcases h with h | ⟨sf, rest, h1, h2⟩
  · subst h; rfl
  · subst h1; simp [runMain, mainLookup, h2]

/-- C7 (witness): a declared source file with an empty grouping index. -/
theorem lookup_failure_aborts_before_streaming_witness :
    ((["run1.raw"] : List String) = []
      ∨ ∃ sf rest, (["run1.raw"] : List String) = sf :: rest
          ∧ lookupA sf ([] : List (String × List SDRFSample)) = none)
    ∧ runMain ["run1.raw"] [] [7] = Except.error unwrapMsg :=
  ⟨Or.inr ⟨"run1.raw", [], rfl, rfl⟩,
    lookup_failure_aborts_before_streaming _ _ _ (Or.inr ⟨"run1.raw", [], rfl, rfl⟩)⟩

end SDRF
